import Mathlib

/-!
Verification of the nft-claim-app redemption core (src/index.js).

The repository contains two near-identical Express variants of the same
backend (separated in src/index.js by a document separator): an ethers-based
variant (lines 1-187, called V1 below) and a thirdweb-Engine variant
(lines 188-382, called V2 below).  Both share the same SQLite table

  CREATE TABLE IF NOT EXISTS qrs (
    id TEXT PRIMARY KEY, created_at INTEGER NOT NULL,
    used_at INTEGER, used_by TEXT, tx_hash TEXT );

(V2 names the last column transaction_id; the shape is identical) and the
same four prepared statements:

  insertQR: INSERT OR IGNORE INTO qrs (id, created_at) VALUES (?, ?)
  getQR:    SELECT * FROM qrs WHERE id = ?
  listQR:   SELECT * FROM qrs ORDER BY created_at DESC LIMIT ?
  markUsed: UPDATE qrs SET used_at=?, used_by=?, tx_hash=? WHERE id=? AND used_at IS NULL

We embed the table as an association list from id to row.  The `id` column
is a PRIMARY KEY and the only insertion path is INSERT OR IGNORE, so keys
are never duplicated; the first-match semantics of the list operations
below agree with SQL on every store built through this interface.
-/

/-- One row of the `qrs` table.  `created_at` is the integer timestamp
(`Date.now()`); the three consumption columns are nullable. -/
structure Row where
  created_at : Nat
  used_at : Option Nat
  used_by : Option String
  tx_hash : Option String
deriving Repr, DecidableEq

/-- The `qrs` table: an association list from code id to row. -/
def Store := List (String × Row)
deriving Repr, DecidableEq

/-- `SELECT * FROM qrs WHERE id = ?` (src/index.js line 35 / 237). -/
def getQR (s : Store) (id : String) : Option Row :=
  match s with
  | [] => none
  | (k, r) :: rest => if k = id then some r else getQR rest id

/-- `INSERT OR IGNORE INTO qrs (id, created_at) VALUES (?, ?)`
(src/index.js line 34 / 236).  Returns whether a row was inserted
(better-sqlite3's `info.changes` as a boolean) and the new table. -/
def insertQR (s : Store) (id : String) (t : Nat) : Bool × Store :=
  match getQR s id with
  | some _ => (false, s)
  | none => (true, (id, ⟨t, none, none, none⟩) :: s)

/-- `UPDATE qrs SET used_at=?, used_by=?, tx_hash=? WHERE id=? AND used_at IS NULL`
(src/index.js lines 37-39 / 239-241).  Argument order follows the statement
placeholders: usedAt, usedBy, settlement reference, id.  Returns whether a
row changed (`.changes` of the run, as a boolean) and the new table. -/
def markUsed (s : Store) (t : Nat) (addr ref id : String) : Bool × Store :=
  match s with
  | [] => (false, [])
  | (k, r) :: rest =>
    if k = id then
      if r.used_at = none then
        (true, (k, ⟨r.created_at, some t, some addr, some ref⟩) :: rest)
      else (false, (k, r) :: rest)
    else
      let p := markUsed rest t addr ref id
      (p.1, (k, r) :: p.2)

/-- Insert one row into a list kept sorted by `created_at` descending
(helper for `listQR`). -/
def insertByCreatedDesc (p : String × Row) : List (String × Row) → List (String × Row)
  | [] => [p]
  | q :: rest =>
    if p.2.created_at ≤ q.2.created_at then q :: insertByCreatedDesc p rest
    else p :: q :: rest

/-- `SELECT * FROM qrs ORDER BY created_at DESC LIMIT ?`
(src/index.js line 36 / 238).  SQL leaves the relative order of rows with
equal `created_at` unspecified; this model fixes one such order (a stable
insertion sort).  A pure read: it never changes the table. -/
def listQR (s : Store) (limit : Nat) : List (String × Row) :=
  (s.foldr insertByCreatedDesc []).take limit

/-!
## Claim handlers

Both variants implement POST /api/claim with the same shape (V1 at
src/index.js lines 159-183, V2 at lines 340-365):

  validate input → getQR → advisory used check → mint → markUsed.

JavaScript specifics kept by the embedding:
  * `if (row.used_at)` is a truthiness test: a NULL `used_at` and a zero
    `used_at` both fail it (`truthyNat`).
  * the minter call sits in a `try` block whose `catch` answers
    HTTP 500 with `e?.message || String(e)` verbatim.
  * the store may be mutated by other requests while a handler awaits the
    minter; `sMid` is the store state at the moment `markUsed` runs
    (a solo uninterrupted run has `sMid = s`).

The handler result records the HTTP response, the store after the
handler's own writes, and two control-flow facts: whether the store was
consulted and whether the minter was invoked.
-/

/-- JavaScript truthiness of a nullable integer column: NULL and 0 are
falsy, everything else truthy. -/
def truthyNat : Option Nat → Bool
  | none => false
  | some t => t != 0

/-- An HTTP JSON response: status code, the `ok` flag, the optional
`error` string, and the optional transaction field (`txHash` in V1,
`transactionId` in V2). -/
structure Resp where
  status : Nat
  ok : Bool
  error : Option String
  txField : Option String
deriving Repr, DecidableEq

/-- Outcome of one claim-handler run: the response, the store after the
handler's own writes, whether the handler read the store, and whether the
minter was invoked. -/
structure ClaimOutcome where
  resp : Resp
  store : Store
  storeRead : Bool
  mintInvoked : Bool
deriving Repr, DecidableEq

/-- `mintTo` of V1 (src/index.js lines 73-92): throws when the chain env
vars are missing, re-checks `ethers.isAddress`, dispatches on
`MINT_METHOD`, otherwise defers to the chain call whose outcome
(`receipt?.hash || tx.hash`, or a thrown error message) is the opaque
`chainRes`.  `isAddr` stands for the external `ethers.isAddress`. -/
def mintTo (chainEnvReady : Bool) (isAddr : String → Bool) (method : String)
    (chainRes : Except String String) (walletAddress : String) :
    Except String String :=
  if !chainEnvReady then .error "Missing RPC_URL / PRIVATE_KEY / NFT_CONTRACT_ADDRESS"
  else if !(isAddr walletAddress) then .error "Invalid wallet address"
  else if method = "claimTo" ∨ method = "safeMint" ∨ method = "mint" then chainRes
  else .error ("Unknown MINT_METHOD: " ++ method)

/-- POST /api/claim of V1 (src/index.js lines 159-183).  `isAddr` stands
for the external `ethers.isAddress`; `now` is `Date.now()` at the
`markUsed` call; `sMid` is the store when `markUsed` runs. -/
def claimV1 (isAddr : String → Bool) (chainEnvReady : Bool) (method : String)
    (code walletAddress : String) (s : Store) (chainRes : Except String String)
    (now : Nat) (sMid : Store) : ClaimOutcome :=
  if code = "" then ⟨⟨400, false, some "Missing code", none⟩, s, false, false⟩
  else if !(isAddr walletAddress) then
    ⟨⟨400, false, some "Invalid walletAddress", none⟩, s, false, false⟩
  else
    match getQR s code with
    | none => ⟨⟨404, false, some "QR not found", none⟩, s, true, false⟩
    | some row =>
      if truthyNat row.used_at then
        ⟨⟨409, false, some "Already claimed", none⟩, s, true, false⟩
      else
        match mintTo chainEnvReady isAddr method chainRes walletAddress with
        | .error e => ⟨⟨500, false, some e, none⟩, sMid, true, true⟩
        | .ok txHash =>
          let p := markUsed sMid now walletAddress txHash code
          if p.1 then ⟨⟨200, true, none, some txHash⟩, p.2, true, true⟩
          else ⟨⟨409, false, some "QR just got used", none⟩, p.2, true, true⟩

/-- JavaScript `s.startsWith(p)`: the characters of `p` are an initial
segment of the characters of `s`. -/
def strHasPrefix (s p : String) : Bool :=
  decide (s.data.take p.data.length = p.data)

/-- The inline wallet-address check of V2 (src/index.js lines 346-348):
`!walletAddress || !walletAddress.startsWith("0x") || walletAddress.length !== 42`. -/
def isAddrV2 (walletAddress : String) : Bool :=
  !(walletAddress = "" || !(strHasPrefix walletAddress "0x") || walletAddress.length != 42)

/-- POST /api/claim of V2 (src/index.js lines 340-365).  V2 first rejects
with HTTP 500 when env vars are missing (`envOk`), then validates, then
follows the same flow; its minter is `serverWallet.enqueueTransaction`,
whose outcome is the opaque `mint`. -/
def claimV2 (envOk : Bool) (code walletAddress : String) (s : Store)
    (mint : Except String String) (now : Nat) (sMid : Store) : ClaimOutcome :=
  if !envOk then ⟨⟨500, false, some "Missing env vars", none⟩, s, false, false⟩
  else if code = "" then ⟨⟨400, false, some "Missing code", none⟩, s, false, false⟩
  else if !(isAddrV2 walletAddress) then
    ⟨⟨400, false, some "Invalid walletAddress", none⟩, s, false, false⟩
  else
    match getQR s code with
    | none => ⟨⟨404, false, some "QR not found", none⟩, s, true, false⟩
    | some row =>
      if truthyNat row.used_at then
        ⟨⟨409, false, some "Already claimed", none⟩, s, true, false⟩
      else
        match mint with
        | .error e => ⟨⟨500, false, some e, none⟩, sMid, true, true⟩
        | .ok txId =>
          let p := markUsed sMid now walletAddress txId code
          if p.1 then ⟨⟨200, true, none, some txId⟩, p.2, true, true⟩
          else ⟨⟨409, false, some "QR just got used", none⟩, p.2, true, true⟩

/-!
## Batch creation

POST /api/qrs/create (V1 at src/index.js lines 112-124, V2 at 286-295):

  const count = Math.max(1, Math.min(200, Number(req.body?.count || 12)));
  const now = Date.now();
  for (let i = 0; i < count; i++) { const id = newId(); insertQR.run(id, now); ids.push(id); }

(V2 is identical except its default is 1.)  The body's `count` field is
embedded as an `Option Int` (a JSON integer or absent); `|| dflt` makes
both an absent field and 0 fall back to the default.  `Date.now()` is
read once, before the loop.  `newId()` is random; the embedding takes the
generator as an oracle `gen : Nat → String` indexed by the loop counter.
-/

/-- `Math.max(1, Math.min(200, Number(req.body?.count || dflt)))`. -/
def clampCount (v : Option Int) (dflt : Int) : Int :=
  max 1 (min 200 (match v with
    | none => dflt
    | some 0 => dflt
    | some n => n))

/-- The creation loop: iterations `i, i+1, ..., i+k-1`, threading the
store; returns the pushed ids in order and the final store. -/
def createLoop (gen : Nat → String) (now : Nat) : Nat → Nat → Store → List String × Store
  | _, 0, s => ([], s)
  | i, k + 1, s =>
    let id := gen i
    let s₁ := (insertQR s id now).2
    let p := createLoop gen now (i + 1) k s₁
    (id :: p.1, p.2)

/-- POST /api/qrs/create: clamp the requested count, read the clock once,
run the loop from i = 0. -/
def createBatch (v : Option Int) (dflt : Int) (gen : Nat → String) (now : Nat)
    (s : Store) : List String × Store :=
  createLoop gen now 0 (clampCount v dflt).toNat s

/-!
## Operation traces

The store is the only shared mutable state; every route touches it through
the four prepared statements, and concurrency happens at the statement
level (each SQLite statement is atomic).  An interleaved execution of any
number of requests is therefore a sequence of atomic operations: inserts,
reads, lists, conditional mark-used writes — and, as a convenience for
stating claims about whole requests, an atomic (uninterrupted) claim
handler run, whose store effect decomposes into a read plus at most one
`markUsed`.  A claim handler that IS interrupted while awaiting the minter
contributes its `getQR` and its `markUsed` as separate operations of the
trace, so quantifying over all operation sequences covers every
interleaving.
-/

/-- One atomic operation against the store. -/
inductive Op where
  | createOp (id : String) (t : Nat)
  | getOp (id : String)
  | listOp (limit : Nat)
  | markOp (t : Nat) (addr ref id : String)
  | claimOp (isAddr : String → Bool) (chainEnvReady : Bool) (method : String)
      (code walletAddress : String) (chainRes : Except String String) (now : Nat)

/-- Store effect of one operation.  Reads leave the store unchanged; an
atomic claim run uses the current store for both its lookup and its
`markUsed` phase. -/
def applyOp (s : Store) : Op → Store
  | .createOp id t => (insertQR s id t).2
  | .getOp _ => s
  | .listOp _ => s
  | .markOp t addr ref id => (markUsed s t addr ref id).2
  | .claimOp isAddr ce m code addr chainRes now =>
    (claimV1 isAddr ce m code addr s chainRes now s).store

/-- Whether this operation performs a `markUsed` on `id` that succeeds
(observes `changed = true`).  For an atomic claim run that is exactly the
HTTP 200 outcome. -/
def markSuccess (s : Store) (op : Op) (id : String) : Bool :=
  match op with
  | .markOp t addr ref i => i = id ∧ (markUsed s t addr ref i).1
  | .claimOp isAddr ce m code addr chainRes now =>
    code = id ∧ (claimV1 isAddr ce m code addr s chainRes now s).resp.status = 200
  | _ => false

/-- Run a sequence of operations. -/
def runOps (s : Store) : List Op → Store
  | [] => s
  | op :: rest => runOps (applyOp s op) rest

/-- Number of successful `markUsed` observations on `id` along a trace. -/
def countMarks (s : Store) (ops : List Op) (id : String) : Nat :=
  match ops with
  | [] => 0
  | op :: rest =>
    (if markSuccess s op id then 1 else 0) + countMarks (applyOp s op) rest id

/-- `id` has a row whose `used_at` is set. -/
def usedSome (s : Store) (id : String) : Bool :=
  match getQR s id with
  | some r => r.used_at.isSome
  | none => false

/-- Number of rows carrying key `id` (the table has `id` as PRIMARY KEY;
exactly-one-row statements are phrased with this count). -/
def countKey (s : Store) (id : String) : Nat :=
  (s.filter fun p => p.1 = id).length

/-- All-or-nothing consumption state of one row: the three consumption
columns are all NULL or all set. -/
def rowConsistent (r : Row) : Bool :=
  (r.used_at.isNone && r.used_by.isNone && r.tx_hash.isNone) ||
  (r.used_at.isSome && r.used_by.isSome && r.tx_hash.isSome)

/-- Every row of the table is in a consistent consumption state. -/
def storeConsistent (s : Store) : Bool :=
  s.all fun p => rowConsistent p.2

/-- The externally observable shape of a JSON response: status code,
`ok` flag, and which optional fields are present. -/
def respShape (r : Resp) : Nat × Bool × Bool × Bool :=
  (r.status, r.ok, r.error.isSome, r.txField.isSome)

/-! ## Lemmas and theorems -/

-- Basic lemmas about the store operations.

theorem getQR_markUsed_self (s : Store) (t : Nat) (addr ref id : String) :
    getQR (markUsed s t addr ref id).2 id =
      match getQR s id with
      | none => none
      | some r =>
        if r.used_at = none then some ⟨r.created_at, some t, some addr, some ref⟩
        else some r := by
  induction s with
  | nil => simp [getQR, markUsed]
  | cons hd tl ih =>
    obtain ⟨k, r⟩ := hd
    by_cases hk : k = id
    · subst hk
      by_cases hu : r.used_at = none <;> simp [getQR, markUsed, hu]
    · simp [getQR, markUsed, hk, ih]

theorem getQR_markUsed_other (s : Store) (t : Nat) (addr ref id j : String)
    (hj : j ≠ id) : getQR (markUsed s t addr ref id).2 j = getQR s j := by
  induction s with
  | nil => simp [getQR, markUsed]
  | cons hd tl ih =>
    obtain ⟨k, r⟩ := hd
    by_cases hk : k = id
    · have hij : ¬ id = j := fun h => hj h.symm
      by_cases hu : r.used_at = none <;> simp [getQR, markUsed, hk, hu, hij]
    · by_cases hkj : k = j <;> simp [getQR, markUsed, hk, hkj, hj, ih]

theorem markUsed_true_iff (s : Store) (t : Nat) (addr ref id : String) :
    (markUsed s t addr ref id).1 = true ↔
      ∃ r, getQR s id = some r ∧ r.used_at = none := by
  induction s with
  | nil => simp [getQR, markUsed]
  | cons hd tl ih =>
    obtain ⟨k, r⟩ := hd
    by_cases hk : k = id
    · subst hk
      by_cases hu : r.used_at = none <;> simp [getQR, markUsed, hu]
    · simp [getQR, markUsed, hk, ih]

theorem markUsed_false_store (s : Store) (t : Nat) (addr ref id : String)
    (h : (markUsed s t addr ref id).1 = false) :
    (markUsed s t addr ref id).2 = s := by
  induction s with
  | nil => simp [markUsed]
  | cons hd tl ih =>
    obtain ⟨k, r⟩ := hd
    by_cases hk : k = id
    · subst hk
      by_cases hu : r.used_at = none
      · simp [markUsed, hu] at h
      · simp [markUsed, hu]
    · simp [markUsed, hk] at h ⊢
      rw [ih h]

theorem markUsed_length (s : Store) (t : Nat) (addr ref id : String) :
    (markUsed s t addr ref id).2.length = s.length := by
  induction s with
  | nil => simp [markUsed]
  | cons hd tl ih =>
    obtain ⟨k, r⟩ := hd
    by_cases hk : k = id
    · subst hk
      by_cases hu : r.used_at = none <;> simp [markUsed, hu]
    · simp [markUsed, hk, ih]

-- Preservation lemmas feeding the single-use and write-once arguments.

theorem markUsed_preserves_row (s : Store) (t : Nat) (addr ref i id : String)
    (r : Row) (hget : getQR s id = some r) (hused : r.used_at ≠ none) :
    getQR (markUsed s t addr ref i).2 id = some r := by
  by_cases hi : id = i
  · subst hi
    rw [getQR_markUsed_self, hget]
    simp [hused]
  · rw [getQR_markUsed_other _ _ _ _ _ _ hi, hget]

theorem getQR_insertQR_preserves (s : Store) (i : String) (t : Nat) (id : String)
    (r : Row) (hget : getQR s id = some r) :
    getQR (insertQR s i t).2 id = some r := by
  unfold insertQR
  by_cases hi : i = id
  · subst hi
    rw [hget]
    exact hget
  · cases h : getQR s i with
    | some q => simpa [h] using hget
    | none => simpa [h, getQR, hi] using hget

/-- The store a V1 claim handler leaves behind is either untouched (`s`
before the mint, `sMid` on minter failure) or the result of its single
`markUsed`. -/
theorem claimV1_store_shape (isAddr : String → Bool) (ce : Bool) (m : String)
    (code addr : String) (s : Store) (chainRes : Except String String)
    (now : Nat) (sMid : Store) :
    (claimV1 isAddr ce m code addr s chainRes now sMid).store = s ∨
    (claimV1 isAddr ce m code addr s chainRes now sMid).store = sMid ∨
    ∃ tx, (claimV1 isAddr ce m code addr s chainRes now sMid).store =
      (markUsed sMid now addr tx code).2 := by
  unfold claimV1
  split
  · exact Or.inl rfl
  · split
    · exact Or.inl rfl
    · split
      · exact Or.inl rfl
      · split
        · exact Or.inl rfl
        · split
          · exact Or.inr (Or.inl rfl)
          · rename_i tx hok
            by_cases hch : (markUsed sMid now addr tx code).1 = true <;>
              exact Or.inr (Or.inr ⟨tx, by simp [hch]⟩)

/-- An HTTP 200 answer from the V1 claim handler pins down the run: the
minter returned a reference and the handler's `markUsed` succeeded. -/
theorem claimV1_status_200 (isAddr : String → Bool) (ce : Bool) (m : String)
    (code addr : String) (s : Store) (chainRes : Except String String)
    (now : Nat) (sMid : Store)
    (h : (claimV1 isAddr ce m code addr s chainRes now sMid).resp.status = 200) :
    ∃ tx, mintTo ce isAddr m chainRes addr = .ok tx ∧
      (markUsed sMid now addr tx code).1 = true ∧
      (claimV1 isAddr ce m code addr s chainRes now sMid).store =
        (markUsed sMid now addr tx code).2 := by
  unfold claimV1 at h
  split at h
  · simp at h
  · rename_i hcode
    split at h
    · simp at h
    · rename_i haddr
      split at h
      · simp at h
      · rename_i row hget
        split at h
        · simp at h
        · rename_i htr
          split at h
          · simp at h
          · rename_i tx hok
            by_cases hch : (markUsed sMid now addr tx code).1 = true
            · refine ⟨tx, hok, hch, ?_⟩
              simp [claimV1, hcode, haddr, hget, htr, hok, hch]
            · simp [hch] at h

theorem usedSome_iff (s : Store) (id : String) :
    usedSome s id = true ↔ ∃ r, getQR s id = some r ∧ r.used_at ≠ none := by
  unfold usedSome
  cases h : getQR s id with
  | none => simp
  | some r => simp [Option.isSome_iff_ne_none]

theorem applyOp_preserves_used (s : Store) (op : Op) (id : String) (r : Row)
    (hget : getQR s id = some r) (hu : r.used_at ≠ none) :
    getQR (applyOp s op) id = some r := by
  cases op with
  | createOp i t => exact getQR_insertQR_preserves s i t id r hget
  | getOp _ => exact hget
  | listOp _ => exact hget
  | markOp t addr ref i => exact markUsed_preserves_row s t addr ref i id r hget hu
  | claimOp isAddr ce m code addr chainRes now =>
    show getQR (claimV1 isAddr ce m code addr s chainRes now s).store id = some r
    rcases claimV1_store_shape isAddr ce m code addr s chainRes now s with h | h | ⟨tx, h⟩
    · rw [h]; exact hget
    · rw [h]; exact hget
    · rw [h]; exact markUsed_preserves_row s now addr tx code id r hget hu

theorem usedSome_after_success (s : Store) (op : Op) (id : String)
    (h : markSuccess s op id = true) : usedSome (applyOp s op) id = true := by
  cases op with
  | createOp i t => simp [markSuccess] at h
  | getOp _ => simp [markSuccess] at h
  | listOp _ => simp [markSuccess] at h
  | markOp t addr ref i =>
    obtain ⟨hi, hch⟩ : i = id ∧ (markUsed s t addr ref i).1 = true := by
      simpa [markSuccess] using h
    subst hi
    obtain ⟨r, hget, hnone⟩ := (markUsed_true_iff s t addr ref i).mp hch
    rw [usedSome_iff]
    refine ⟨⟨r.created_at, some t, some addr, some ref⟩, ?_, by simp⟩
    show getQR (applyOp s (.markOp t addr ref i)) i = _
    simp only [applyOp]
    rw [getQR_markUsed_self, hget]
    simp [hnone]
  | claimOp isAddr ce m code addr chainRes now =>
    obtain ⟨hi, hst⟩ : code = id ∧
        (claimV1 isAddr ce m code addr s chainRes now s).resp.status = 200 := by
      simpa [markSuccess] using h
    subst hi
    obtain ⟨tx, hok, hch, hstore⟩ :=
      claimV1_status_200 isAddr ce m code addr s chainRes now s hst
    obtain ⟨r, hget, hnone⟩ := (markUsed_true_iff s now addr tx code).mp hch
    rw [usedSome_iff]
    refine ⟨⟨r.created_at, some now, some addr, some tx⟩, ?_, by simp⟩
    show getQR (claimV1 isAddr ce m code addr s chainRes now s).store code = _
    rw [hstore, getQR_markUsed_self, hget]
    simp [hnone]

theorem no_success_of_used (s : Store) (op : Op) (id : String)
    (hu : usedSome s id = true) : markSuccess s op id = false := by
  by_contra hne
  have hsucc : markSuccess s op id = true := by
    cases hm : markSuccess s op id
    · exact absurd hm hne
    · rfl
  obtain ⟨r, hget, hused⟩ := (usedSome_iff s id).mp hu
  cases op with
  | createOp i t => simp [markSuccess] at hsucc
  | getOp _ => simp [markSuccess] at hsucc
  | listOp _ => simp [markSuccess] at hsucc
  | markOp t addr ref i =>
    obtain ⟨hi, hch⟩ : i = id ∧ (markUsed s t addr ref i).1 = true := by
      simpa [markSuccess] using hsucc
    subst hi
    obtain ⟨r', hget', hnone⟩ := (markUsed_true_iff s t addr ref i).mp hch
    rw [hget] at hget'
    cases hget'
    exact hused hnone
  | claimOp isAddr ce m code addr chainRes now =>
    obtain ⟨hi, hst⟩ : code = id ∧
        (claimV1 isAddr ce m code addr s chainRes now s).resp.status = 200 := by
      simpa [markSuccess] using hsucc
    subst hi
    obtain ⟨tx, hok, hch, hstore⟩ :=
      claimV1_status_200 isAddr ce m code addr s chainRes now s hst
    obtain ⟨r', hget', hnone⟩ := (markUsed_true_iff s now addr tx code).mp hch
    rw [hget] at hget'
    cases hget'
    exact hused hnone

theorem countMarks_zero_of_used (ops : List Op) (s : Store) (id : String)
    (hu : usedSome s id = true) : countMarks s ops id = 0 := by
  induction ops generalizing s with
  | nil => rfl
  | cons op rest ih =>
    obtain ⟨r, hget, hused⟩ := (usedSome_iff s id).mp hu
    have hu' : usedSome (applyOp s op) id = true := by
      rw [usedSome_iff]
      exact ⟨r, applyOp_preserves_used s op id r hget hused, hused⟩
    simp [countMarks, no_success_of_used s op id hu, ih _ hu']

theorem countMarks_le_one (ops : List Op) (s : Store) (id : String) :
    countMarks s ops id ≤ 1 := by
  induction ops generalizing s with
  | nil => simp [countMarks]
  | cons op rest ih =>
    by_cases hs : markSuccess s op id = true
    · have hz := countMarks_zero_of_used rest (applyOp s op) id
        (usedSome_after_success s op id hs)
      simp [countMarks, hs, hz]
    · have hs' : markSuccess s op id = false := by
        cases hm : markSuccess s op id
        · rfl
        · exact absurd hm hs
      simp only [countMarks, hs', if_false]
      simpa using ih (applyOp s op)

theorem getQR_insertQR_self (s : Store) (id : String) (t : Nat) :
    getQR (insertQR s id t).2 id =
      match getQR s id with
      | some r => some r
      | none => some ⟨t, none, none, none⟩ := by
  unfold insertQR
  cases h : getQR s id with
  | some r => simpa using h
  | none => simp [getQR]

theorem getQR_insertQR_other (s : Store) (i : String) (t : Nat) (j : String)
    (hj : i ≠ j) : getQR (insertQR s i t).2 j = getQR s j := by
  unfold insertQR
  cases h : getQR s i with
  | some r => rfl
  | none => simp [getQR, hj]

theorem countKey_zero_of_none (s : Store) (id : String)
    (h : getQR s id = none) : countKey s id = 0 := by
  induction s with
  | nil => rfl
  | cons hd tl ih =>
    obtain ⟨k, r⟩ := hd
    by_cases hk : k = id
    · simp [getQR, hk] at h
    · simp [getQR, hk] at h
      simpa [countKey, List.filter, hk] using ih h

theorem storeConsistent_insertQR (s : Store) (id : String) (t : Nat)
    (h : storeConsistent s = true) :
    storeConsistent (insertQR s id t).2 = true := by
  unfold insertQR
  cases hg : getQR s id with
  | some r => exact h
  | none => simpa [storeConsistent, rowConsistent] using h

theorem storeConsistent_cons (k : String) (r : Row) (tl : List (String × Row)) :
    storeConsistent ((k, r) :: tl) = (rowConsistent r && storeConsistent tl) := by
  simp [storeConsistent]

theorem storeConsistent_markUsed (s : Store) (t : Nat) (addr ref id : String)
    (h : storeConsistent s = true) :
    storeConsistent (markUsed s t addr ref id).2 = true := by
  induction s with
  | nil => simpa [markUsed] using h
  | cons hd tl ih =>
    obtain ⟨k, r⟩ := hd
    rw [storeConsistent_cons, Bool.and_eq_true] at h
    obtain ⟨h1, h2⟩ := h
    by_cases hk : k = id
    · by_cases hu : r.used_at = none
      · simp [markUsed, hk, hu, storeConsistent_cons, h2, rowConsistent]
      · simp [markUsed, hk, hu, storeConsistent_cons, h1, h2]
    · simp [markUsed, hk, storeConsistent_cons, h1, ih h2]

theorem storeConsistent_applyOp (s : Store) (op : Op)
    (h : storeConsistent s = true) : storeConsistent (applyOp s op) = true := by
  cases op with
  | createOp i t => exact storeConsistent_insertQR s i t h
  | getOp _ => exact h
  | listOp _ => exact h
  | markOp t addr ref i => exact storeConsistent_markUsed s t addr ref i h
  | claimOp isAddr ce m code addr chainRes now =>
    show storeConsistent (claimV1 isAddr ce m code addr s chainRes now s).store = true
    rcases claimV1_store_shape isAddr ce m code addr s chainRes now s with hs | hs | ⟨tx, hs⟩
    · rw [hs]; exact h
    · rw [hs]; exact h
    · rw [hs]; exact storeConsistent_markUsed s now addr tx code h

theorem storeConsistent_runOps (ops : List Op) (s : Store)
    (h : storeConsistent s = true) : storeConsistent (runOps s ops) = true := by
  induction ops generalizing s with
  | nil => exact h
  | cons op rest ih => exact ih (applyOp s op) (storeConsistent_applyOp s op h)

theorem runOps_preserves_used (ops : List Op) (s : Store) (id : String) (r : Row)
    (hget : getQR s id = some r) (hu : r.used_at ≠ none) :
    getQR (runOps s ops) id = some r := by
  induction ops generalizing s with
  | nil => exact hget
  | cons op rest ih =>
    exact ih (applyOp s op) (applyOp_preserves_used s op id r hget hu)

theorem clampCount_ge_one (v : Option Int) (dflt : Int) : 1 ≤ clampCount v dflt :=
  le_max_left _ _

theorem clampCount_le_200 (v : Option Int) (dflt : Int) : clampCount v dflt ≤ 200 := by
  unfold clampCount
  exact max_le (by norm_num) (min_le_left _ _)

theorem createLoop_ids_length (gen : Nat → String) (now : Nat) :
    ∀ (k i : Nat) (s : Store), (createLoop gen now i k s).1.length = k := by
  intro k
  induction k with
  | zero => intro i s; rfl
  | succ n ih => intro i s; simp [createLoop, ih]

theorem createLoop_preserves (gen : Nat → String) (now : Nat) :
    ∀ (k i : Nat) (s : Store) (id : String) (r : Row),
      getQR s id = some r → getQR (createLoop gen now i k s).2 id = some r := by
  intro k
  induction k with
  | zero => intro i s id r h; exact h
  | succ n ih =>
    intro i s id r h
    exact ih (i + 1) _ id r (getQR_insertQR_preserves s (gen i) now id r h)

theorem createLoop_store_length (gen : Nat → String) (now : Nat) :
    ∀ (k i : Nat) (s : Store),
      (∀ j, i ≤ j → j < i + k → getQR s (gen j) = none) →
      (∀ a b, i ≤ a → a < b → b < i + k → gen a ≠ gen b) →
      (createLoop gen now i k s).2.length = s.length + k := by
  intro k
  induction k with
  | zero => intro i s _ _; rfl
  | succ n ih =>
    intro i s hfresh hdist
    have hif : getQR s (gen i) = none := hfresh i (le_refl i) (by omega)
    have hs₁ : (insertQR s (gen i) now).2 = (gen i, ⟨now, none, none, none⟩) :: s := by
      simp [insertQR, hif]
    have hrec := ih (i + 1) ((insertQR s (gen i) now).2)
      (by
        intro j hj1 hj2
        rw [hs₁]
        have hne : gen i ≠ gen j := hdist i j (le_refl i) (by omega) (by omega)
        simp [getQR, hne]
        exact hfresh j (by omega) (by omega))
      (by
        intro a b ha hab hb
        exact hdist a b (by omega) hab (by omega))
    simp only [createLoop]
    rw [hrec, hs₁]
    simp [List.length_cons]
    omega

theorem createLoop_member_created (gen : Nat → String) (now : Nat) :
    ∀ (k i : Nat) (s : Store) (id : String),
      id ∈ (createLoop gen now i k s).1 → getQR s id = none →
      getQR (createLoop gen now i k s).2 id = some ⟨now, none, none, none⟩ := by
  intro k
  induction k with
  | zero => intro i s id hmem; simp [createLoop] at hmem
  | succ n ih =>
    intro i s id hmem hfresh
    by_cases hgi : id = gen i
    · have hfg : getQR s (gen i) = none := hgi ▸ hfresh
      have hs₁ : (insertQR s (gen i) now).2 = (gen i, ⟨now, none, none, none⟩) :: s := by
        simp [insertQR, hfg]
      have hget₁ : getQR (insertQR s (gen i) now).2 id = some ⟨now, none, none, none⟩ := by
        rw [hs₁, hgi]; simp [getQR]
      show getQR (createLoop gen now (i + 1) n (insertQR s (gen i) now).2).2 id = _
      exact createLoop_preserves gen now n (i + 1) _ id _ hget₁
    · have hmem' : id ∈ (createLoop gen now (i + 1) n (insertQR s (gen i) now).2).1 := by
        simp only [createLoop, List.mem_cons] at hmem
        rcases hmem with h | h
        · exact absurd h hgi
        · exact h
      have hfresh' : getQR (insertQR s (gen i) now).2 id = none := by
        rw [getQR_insertQR_other s (gen i) now id (fun h => hgi h.symm)]
        exact hfresh
      exact ih (i + 1) _ id hmem' hfresh'

/-! ## The claims -/

/-- C1.  Single-use: for every code id, across any sequence of interleaved
operations on the store (bare `markUsed` calls, creations, reads, and
whole claim runs), at most one `markUsed` observes `changed = true`; every
other `markUsed` on that id observes `false`, regardless of the number of
operations or their interleaving. -/
theorem claim_C1_single_use (s : Store) (ops : List Op) (id : String) :
    countMarks s ops id ≤ 1 :=
  countMarks_le_one ops s id

/-- C2.  `markUsed` returns `true` iff a row with the given id exists and
its `used_at` is currently NULL; in that case it sets exactly the three
consumption columns of that row (leaving `created_at` and every other row
unchanged, adding no row); in every other case it mutates nothing and
returns `false`. -/
theorem claim_C2_markUsed_conditional (s : Store) (t : Nat) (b ref id : String) :
    ((markUsed s t b ref id).1 = true ↔ ∃ r, getQR s id = some r ∧ r.used_at = none)
    ∧ ((markUsed s t b ref id).1 = false → (markUsed s t b ref id).2 = s)
    ∧ (∀ r, getQR s id = some r → r.used_at = none →
        getQR (markUsed s t b ref id).2 id = some ⟨r.created_at, some t, some b, some ref⟩
        ∧ ∀ j, j ≠ id → getQR (markUsed s t b ref id).2 j = getQR s j)
    ∧ (markUsed s t b ref id).2.length = s.length := by
  refine ⟨markUsed_true_iff s t b ref id, markUsed_false_store s t b ref id, ?_,
    markUsed_length s t b ref id⟩
  intro r hget hnone
  constructor
  · rw [getQR_markUsed_self, hget]
    simp [hnone]
  · intro j hj
    exact getQR_markUsed_other s t b ref id j hj

/-- Witness for C2: on a one-row store with an unused row `"a"`, marking
`"a"` succeeds, writes the three consumption fields, and leaves other
lookups unchanged. -/
theorem claim_C2_witness :
    (markUsed [("a", ⟨1, none, none, none⟩)] 5 "0xw" "tx" "a").1 = true
    ∧ getQR (markUsed [("a", ⟨1, none, none, none⟩)] 5 "0xw" "tx" "a").2 "a" =
        some ⟨1, some 5, some "0xw", some "tx"⟩
    ∧ getQR (markUsed [("a", ⟨1, none, none, none⟩)] 5 "0xw" "tx" "a").2 "b" =
        getQR [("a", ⟨1, none, none, none⟩)] "b" := by
  have h := claim_C2_markUsed_conditional [("a", ⟨1, none, none, none⟩)] 5 "0xw" "tx" "a"
  exact ⟨h.1.mpr ⟨⟨1, none, none, none⟩, rfl, rfl⟩,
    (h.2.2.1 ⟨1, none, none, none⟩ rfl rfl).1,
    (h.2.2.1 ⟨1, none, none, none⟩ rfl rfl).2 "b" (by decide)⟩

/-- C3.  Consumption-fields invariant: on every store whose rows are in a
consistent consumption state (the three fields all NULL or all set), any
sequence of operations — creation, point read, listing, `markUsed`, whole
claim runs — preserves that consistency; and a row whose `used_at` is set
is never changed again by any operation (write-once: none of its fields,
in particular `used_at`, `used_by`, `tx_hash`, is cleared or
overwritten). -/
theorem claim_C3_consistency_write_once (ops : List Op) (s : Store) :
    (storeConsistent s = true → storeConsistent (runOps s ops) = true)
    ∧ (∀ id r, getQR s id = some r → r.used_at ≠ none →
        getQR (runOps s ops) id = some r) :=
  ⟨storeConsistent_runOps ops s,
    fun id r hget hu => runOps_preserves_used ops s id r hget hu⟩

/-- Witness for C3: a consistent store with one used row stays consistent
across a trace with one operation of each kind, and the used row's triple
survives untouched. -/
theorem claim_C3_witness :
    storeConsistent (runOps [("a", ⟨1, some 2, some "w", some "t"⟩)]
      [Op.createOp "b" 3, Op.getOp "a", Op.listOp 5, Op.markOp 9 "x" "y" "a",
        Op.claimOp (fun _ => true) true "claimTo" "a" "0x1" (Except.ok "tx") 9]) = true
    ∧ getQR (runOps [("a", ⟨1, some 2, some "w", some "t"⟩)]
      [Op.createOp "b" 3, Op.getOp "a", Op.listOp 5, Op.markOp 9 "x" "y" "a",
        Op.claimOp (fun _ => true) true "claimTo" "a" "0x1" (Except.ok "tx") 9]) "a" =
        some ⟨1, some 2, some "w", some "t"⟩ := by
  have h := claim_C3_consistency_write_once
    [Op.createOp "b" 3, Op.getOp "a", Op.listOp 5, Op.markOp 9 "x" "y" "a",
      Op.claimOp (fun _ => true) true "claimTo" "a" "0x1" (Except.ok "tx") 9]
    [("a", ⟨1, some 2, some "w", some "t"⟩)]
  exact ⟨h.1 (by decide), h.2 "a" ⟨1, some 2, some "w", some "t"⟩ (by decide) (by decide)⟩

/-- C4.  Idempotent creation: inserting an id that already exists returns
`false` and is a no-op; inserting the same id twice leaves exactly one row
for it, carrying the `created_at` recorded by the first call. -/
theorem claim_C4_create_idempotent (s : Store) (id : String) (t₁ t₂ : Nat) :
    (insertQR (insertQR s id t₁).2 id t₂).1 = false
    ∧ (insertQR (insertQR s id t₁).2 id t₂).2 = (insertQR s id t₁).2
    ∧ (∀ r, getQR s id = some r → insertQR s id t₁ = (false, s))
    ∧ (getQR s id = none →
        (insertQR s id t₁).1 = true
        ∧ getQR (insertQR s id t₁).2 id = some ⟨t₁, none, none, none⟩
        ∧ countKey (insertQR (insertQR s id t₁).2 id t₂).2 id = 1) := by
  have hsome : ∃ r, getQR (insertQR s id t₁).2 id = some r := by
    rw [getQR_insertQR_self]
    cases h : getQR s id <;> simp
  obtain ⟨r₀, hr₀⟩ := hsome
  have key : ∀ (s₁ : Store), getQR s₁ id = some r₀ → insertQR s₁ id t₂ = (false, s₁) :=
    fun s₁ h => by simp [insertQR, h]
  have h2 := key _ hr₀
  refine ⟨by rw [h2], by rw [h2], fun r hr => by simp [insertQR, hr], ?_⟩
  intro hnone
  have h1 : insertQR s id t₁ = (true, (id, ⟨t₁, none, none, none⟩) :: s) := by
    simp [insertQR, hnone]
  refine ⟨by simp [h1], by rw [h1]; simp [getQR], ?_⟩
  rw [h2, h1]
  have h0 := countKey_zero_of_none s id hnone
  simp only [countKey, List.filter] at h0 ⊢
  simp [h0]

/-- Witness for C4: creating `"a"` twice in an empty store: the second call
returns `false` and changes nothing; one row remains with the first
timestamp. -/
theorem claim_C4_witness :
    (insertQR (insertQR [] "a" 3).2 "a" 9).1 = false
    ∧ (insertQR (insertQR [] "a" 3).2 "a" 9).2 = (insertQR [] "a" 3).2
    ∧ getQR (insertQR [] "a" 3).2 "a" = some ⟨3, none, none, none⟩
    ∧ countKey (insertQR (insertQR [] "a" 3).2 "a" 9).2 "a" = 1 := by
  have h := claim_C4_create_idempotent [] "a" 3 9
  exact ⟨h.1, h.2.1, (h.2.2.2 rfl).2.1, (h.2.2.2 rfl).2.2⟩

/-- C5.  Bounded batch size: the requested count is clamped to [1, 200] —
the list of generated code ids always has between 1 and 200 elements, a
request for count = 10000 is clamped to exactly 200, and when the
generated ids are pairwise distinct and fresh, exactly that many rows are
added to the table, never more. -/
theorem claim_C5_batch_clamped (v : Option Int) (dflt : Int) (gen : Nat → String)
    (now : Nat) (s : Store) :
    1 ≤ clampCount v dflt
    ∧ clampCount v dflt ≤ 200
    ∧ (createBatch v dflt gen now s).1.length = (clampCount v dflt).toNat
    ∧ clampCount (some 10000) dflt = 200
    ∧ ((∀ a b, a < (clampCount v dflt).toNat → b < (clampCount v dflt).toNat →
          a ≠ b → gen a ≠ gen b) →
      (∀ a, a < (clampCount v dflt).toNat → getQR s (gen a) = none) →
      (createBatch v dflt gen now s).2.length = s.length + (clampCount v dflt).toNat) := by
  refine ⟨clampCount_ge_one v dflt, clampCount_le_200 v dflt,
    createLoop_ids_length gen now _ 0 s, ?_, ?_⟩
  · unfold clampCount
    norm_num
  · intro hdist hfresh
    exact createLoop_store_length gen now ((clampCount v dflt).toNat) 0 s
      (fun j _ hj => hfresh j (by omega))
      (fun a b _ hab hb => hdist a b (by omega) (by omega) (by omega))

/-- Witness for C5: a request for 10000 codes on the empty store, with a
generator that produces pairwise-distinct ids, yields exactly 200 ids and
exactly 200 rows. -/
theorem claim_C5_witness :
    1 ≤ clampCount (some 10000) 12
    ∧ (createBatch (some 10000) 12 (fun i => String.mk (List.replicate i 'x')) 0
        ([] : Store)).1.length = (clampCount (some 10000) 12).toNat
    ∧ (createBatch (some 10000) 12 (fun i => String.mk (List.replicate i 'x')) 0
        ([] : Store)).2.length = ([] : Store).length + (clampCount (some 10000) 12).toNat := by
  have h := claim_C5_batch_clamped (some 10000) 12
    (fun i => String.mk (List.replicate i 'x')) 0 ([] : Store)
  refine ⟨h.1, h.2.2.1, h.2.2.2.2 ?_ ?_⟩
  · intro a b _ _ hne heq
    exact hne (by simpa using congrArg (fun str => str.data.length) heq)
  · intro a _
    rfl

/-- C10.  Within one batch-create invocation the clock is read once, so
every id the batch freshly inserts gets a row with exactly that one
`created_at = now` (and empty consumption fields); in particular any two
codes of the same batch carry the identical `created_at`, leaving the
newest-first listing order undefined between them. -/
theorem claim_C10_batch_single_timestamp (v : Option Int) (dflt : Int)
    (gen : Nat → String) (now : Nat) (s : Store) (id : String)
    (hmem : id ∈ (createBatch v dflt gen now s).1)
    (hfresh : getQR s id = none) :
    getQR (createBatch v dflt gen now s).2 id = some ⟨now, none, none, none⟩ :=
  createLoop_member_created gen now _ 0 s id hmem hfresh

/-- Witness for C10: a batch of 2 codes created at time 7 on the empty
store; the second generated id is found afterwards with `created_at = 7`. -/
theorem claim_C10_witness :
    "b1" ∈ (createBatch (some 2) 12 (fun i => "b" ++ Nat.repr i) 7 []).1
    ∧ getQR (createBatch (some 2) 12 (fun i => "b" ++ Nat.repr i) 7 []).2 "b1" =
        some ⟨7, none, none, none⟩ := by
  have hmem : "b1" ∈ (createBatch (some 2) 12 (fun i => "b" ++ Nat.repr i) 7 []).1 := by
    decide
  exact ⟨hmem,
    claim_C10_batch_single_timestamp (some 2) 12 (fun i => "b" ++ Nat.repr i) 7 [] "b1"
      hmem rfl⟩

/-- Counterexample to C6 as stated: `"0x"` followed by 40 characters that
are NOT hex digits passes V2's validation (which checks only the prefix
and the total length), so the handler reaches the store (here: an empty
store, answering 404) instead of returning the InvalidInput error the
claim requires for a non-hex address. -/
theorem claim_C6_counterexample :
    isAddrV2 "0xzzzzzzzzzzzzzzzzzzzzzzzzzzzzzzzzzzzzzzzz" = true
    ∧ (claimV2 true "code1" "0xzzzzzzzzzzzzzzzzzzzzzzzzzzzzzzzzzzzzzzzz"
        ([] : Store) (Except.ok "tx") 1 ([] : Store)).resp.status = 404
    ∧ (claimV2 true "code1" "0xzzzzzzzzzzzzzzzzzzzzzzzzzzzzzzzzzzzzzzzz"
        ([] : Store) (Except.ok "tx") 1 ([] : Store)).storeRead = true := by
  decide

/-- C6 (amended).  Claim validates before any store access: an empty code
is rejected as InvalidInput with no store read and no minter call; V2
accepts a destination address exactly when it starts with `"0x"` and has
total length 42 (hex content is NOT checked), rejecting every other
address as InvalidInput without store access, and any accepted address —
in particular `"0x"` plus 40 hex characters — proceeds past validation
(never yielding the 400 InvalidInput status); V1 delegates the address
test to the external `ethers.isAddress` predicate with the same
before-the-store control flow. -/
theorem claim_C6_validation (envOk : Bool) (code addr : String) (s : Store)
    (mint : Except String String) (now : Nat) (sMid : Store)
    (isAddr : String → Bool) (ce : Bool) (m : String)
    (chainRes : Except String String) :
    (envOk = true → code = "" → claimV2 envOk code addr s mint now sMid =
      ⟨⟨400, false, some "Missing code", none⟩, s, false, false⟩)
    ∧ (envOk = true → code ≠ "" → isAddrV2 addr = false →
        claimV2 envOk code addr s mint now sMid =
          ⟨⟨400, false, some "Invalid walletAddress", none⟩, s, false, false⟩)
    ∧ (isAddrV2 addr = true ↔ strHasPrefix addr "0x" = true ∧ addr.length = 42)
    ∧ (envOk = true → code ≠ "" → isAddrV2 addr = true →
        (claimV2 envOk code addr s mint now sMid).resp.status ≠ 400)
    ∧ (code = "" → claimV1 isAddr ce m code addr s chainRes now sMid =
        ⟨⟨400, false, some "Missing code", none⟩, s, false, false⟩)
    ∧ (code ≠ "" → isAddr addr = false →
        claimV1 isAddr ce m code addr s chainRes now sMid =
          ⟨⟨400, false, some "Invalid walletAddress", none⟩, s, false, false⟩)
    ∧ (code ≠ "" → isAddr addr = true →
        (claimV1 isAddr ce m code addr s chainRes now sMid).resp.status ≠ 400) := by
  refine ⟨?_, ?_, ?_, ?_, ?_, ?_, ?_⟩
  · intro henv hcode
    simp [claimV2, henv, hcode]
  · intro henv hcode haddr
    simp [claimV2, henv, hcode, haddr]
  · unfold isAddrV2
    rw [Bool.not_eq_true', Bool.or_eq_false_iff, Bool.or_eq_false_iff]
    constructor
    · rintro ⟨⟨-, hpref⟩, hlen⟩
      exact ⟨by simpa using hpref, by simpa using hlen⟩
    · rintro ⟨hpref, hlen⟩
      have hne : addr ≠ "" := by
        intro he
        rw [he] at hlen
        simp at hlen
      exact ⟨⟨by simpa using hne, by simpa using hpref⟩, by simpa using hlen⟩
  · intro henv hcode haddr
    rcases hg : getQR s code with _ | row
    · simp [claimV2, henv, hcode, haddr, hg]
    · by_cases ht : truthyNat row.used_at = true
      · simp [claimV2, henv, hcode, haddr, hg, ht]
      · rcases hm : mint with e | tx
        · simp [claimV2, henv, hcode, haddr, hg, ht, hm]
        · by_cases hch : (markUsed sMid now addr tx code).1 = true
          · simp [claimV2, henv, hcode, haddr, hg, ht, hm, hch]
          · simp [claimV2, henv, hcode, haddr, hg, ht, hm, hch]
  · intro hcode
    simp [claimV1, hcode]
  · intro hcode haddr
    simp [claimV1, hcode, haddr]
  · intro hcode haddr
    rcases hg : getQR s code with _ | row
    · simp [claimV1, hcode, haddr, hg]
    · by_cases ht : truthyNat row.used_at = true
      · simp [claimV1, hcode, haddr, hg, ht]
      · rcases hm : mintTo ce isAddr m chainRes addr with e | tx
        · simp [claimV1, hcode, haddr, hg, ht, hm]
        · by_cases hch : (markUsed sMid now addr tx code).1 = true
          · simp [claimV1, hcode, haddr, hg, ht, hm, hch]
          · simp [claimV1, hcode, haddr, hg, ht, hm, hch]

/-- Witness for the amended C6: a 42-character `"0x"`-prefixed address
passes V2 validation and a malformed one is rejected without store
access. -/
theorem claim_C6_witness :
    claimV2 true "code1" "not-an-address" [("code1", ⟨1, none, none, none⟩)]
      (Except.ok "tx") 1 [("code1", ⟨1, none, none, none⟩)] =
      ⟨⟨400, false, some "Invalid walletAddress", none⟩,
        [("code1", ⟨1, none, none, none⟩)], false, false⟩
    ∧ (claimV2 true "code1" "0x1111111111111111111111111111111111111111"
        [("code1", ⟨1, none, none, none⟩)] (Except.ok "tx") 1
        [("code1", ⟨1, none, none, none⟩)]).resp.status ≠ 400 := by
  have h := claim_C6_validation true "code1" "not-an-address"
    [("code1", ⟨1, none, none, none⟩)] (Except.ok "tx") 1
    [("code1", ⟨1, none, none, none⟩)] (fun _ => true) true "claimTo" (Except.ok "tx")
  have h2 := claim_C6_validation true "code1"
    "0x1111111111111111111111111111111111111111"
    [("code1", ⟨1, none, none, none⟩)] (Except.ok "tx") 1
    [("code1", ⟨1, none, none, none⟩)] (fun _ => true) true "claimTo" (Except.ok "tx")
  exact ⟨h.2.1 rfl (by decide) (by decide),
    h2.2.2.2.1 rfl (by decide) (by decide)⟩

/-- Counterexample to C7 as stated: a row whose `used_at` IS present but
equals 0 does not trigger the AlreadyUsed answer — JavaScript's
`if (row.used_at)` is falsy on 0 — so the handler invokes the minter and
ends in the Conflict response instead. -/
theorem claim_C7_counterexample :
    ((⟨1, some 0, some "w", some "t"⟩ : Row).used_at ≠ none)
    ∧ (claimV1 (fun _ => true) true "claimTo" "c" "0xabc"
        [("c", ⟨1, some 0, some "w", some "t"⟩)] (Except.ok "tx2") 7
        [("c", ⟨1, some 0, some "w", some "t"⟩)]).mintInvoked = true
    ∧ (claimV1 (fun _ => true) true "claimTo" "c" "0xabc"
        [("c", ⟨1, some 0, some "w", some "t"⟩)] (Except.ok "tx2") 7
        [("c", ⟨1, some 0, some "w", some "t"⟩)]).resp.error ≠
          some "Already claimed" := by
  decide

/-- C7 (amended).  For a valid-input claim: an unknown code answers
NotFound with the store untouched and the minter never invoked; a row
whose `used_at` is present and nonzero answers AlreadyUsed, again with no
mint and no store change; a row whose `used_at` is present but zero slips
past the advisory truthiness check — the minter IS invoked — and the
conditional `markUsed` then fails, producing the Conflict response with
the store still unchanged. -/
theorem claim_C7_lookup_outcomes (isAddr : String → Bool) (ce : Bool) (m : String)
    (code addr : String) (s : Store) (chainRes : Except String String)
    (now : Nat) (sMid : Store)
    (hcode : code ≠ "") (haddr : isAddr addr = true) :
    (getQR s code = none →
      claimV1 isAddr ce m code addr s chainRes now sMid =
        ⟨⟨404, false, some "QR not found", none⟩, s, true, false⟩)
    ∧ (∀ r, getQR s code = some r → truthyNat r.used_at = true →
      claimV1 isAddr ce m code addr s chainRes now sMid =
        ⟨⟨409, false, some "Already claimed", none⟩, s, true, false⟩)
    ∧ (∀ r tx, getQR s code = some r → r.used_at = some 0 →
      mintTo ce isAddr m chainRes addr = Except.ok tx →
      claimV1 isAddr ce m code addr s chainRes now s =
        ⟨⟨409, false, some "QR just got used", none⟩, s, true, true⟩) := by
  refine ⟨?_, ?_, ?_⟩
  · intro hg
    simp [claimV1, hcode, haddr, hg]
  · intro r hg ht
    simp [claimV1, hcode, haddr, hg, ht]
  · intro r tx hget hu0 hok
    have hm : (markUsed s now addr tx code).1 = false := by
      cases hmm : (markUsed s now addr tx code).1
      · rfl
      · obtain ⟨r', hg', hn'⟩ := (markUsed_true_iff s now addr tx code).mp hmm
        rw [hget] at hg'
        cases hg'
        rw [hu0] at hn'
        cases hn'
    have hst := markUsed_false_store s now addr tx code hm
    simp [claimV1, hcode, haddr, hget, hu0, truthyNat, hok, hm, hst]

/-- Witness for the amended C7: a row with nonzero `used_at` answers
AlreadyUsed, leaving store and minter untouched. -/
theorem claim_C7_witness :
    claimV1 (fun _ => true) true "claimTo" "c" "0xabc"
      [("c", ⟨1, some 5, some "w", some "t"⟩)] (Except.ok "tx") 7
      [("c", ⟨1, some 5, some "w", some "t"⟩)] =
      ⟨⟨409, false, some "Already claimed", none⟩,
        [("c", ⟨1, some 5, some "w", some "t"⟩)], true, false⟩ := by
  exact (claim_C7_lookup_outcomes (fun _ => true) true "claimTo" "c" "0xabc"
    [("c", ⟨1, some 5, some "w", some "t"⟩)] (Except.ok "tx") 7
    [("c", ⟨1, some 5, some "w", some "t"⟩)] (by decide) rfl).2.1
    ⟨1, some 5, some "w", some "t"⟩ rfl (by decide)

/-- C8.  When the minter succeeds but the subsequent `markUsed` returns
`false` (another claim consumed the code while this one awaited the mint),
the caller gets the Conflict response — HTTP 409 with the same external
shape as the AlreadyUsed response — even though the mint already happened
(`mintInvoked = true`), and the store is left exactly as the winning
claim wrote it; when `markUsed` returns `true`, the caller gets success
carrying the minter's transaction reference. -/
theorem claim_C8_conflict_after_mint (isAddr : String → Bool) (ce : Bool) (m : String)
    (code addr : String) (s : Store) (chainRes : Except String String)
    (now : Nat) (sMid : Store) (r : Row) (tx : String)
    (hcode : code ≠ "") (haddr : isAddr addr = true)
    (hget : getQR s code = some r) (hrow : truthyNat r.used_at = false)
    (hok : mintTo ce isAddr m chainRes addr = Except.ok tx) :
    ((markUsed sMid now addr tx code).1 = false →
      claimV1 isAddr ce m code addr s chainRes now sMid =
        ⟨⟨409, false, some "QR just got used", none⟩, sMid, true, true⟩
      ∧ respShape ⟨409, false, some "QR just got used", none⟩ =
          respShape ⟨409, false, some "Already claimed", none⟩)
    ∧ ((markUsed sMid now addr tx code).1 = true →
      claimV1 isAddr ce m code addr s chainRes now sMid =
        ⟨⟨200, true, none, some tx⟩, (markUsed sMid now addr tx code).2, true, true⟩) := by
  constructor
  · intro hm
    have hst := markUsed_false_store sMid now addr tx code hm
    exact ⟨by simp [claimV1, hcode, haddr, hget, hrow, hok, hm, hst], rfl⟩
  · intro hm
    simp [claimV1, hcode, haddr, hget, hrow, hok, hm]

/-- Witness for C8: the lookup sees an unused row, the mint succeeds, but
by `markUsed` time the row is already consumed — the caller gets the 409
Conflict and the winner's triple survives. -/
theorem claim_C8_witness :
    claimV1 (fun _ => true) true "claimTo" "c" "0xabc"
      [("c", ⟨1, none, none, none⟩)] (Except.ok "tx9") 7
      [("c", ⟨1, some 5, some "w", some "t"⟩)] =
      ⟨⟨409, false, some "QR just got used", none⟩,
        [("c", ⟨1, some 5, some "w", some "t"⟩)], true, true⟩ := by
  exact ((claim_C8_conflict_after_mint (fun _ => true) true "claimTo" "c" "0xabc"
    [("c", ⟨1, none, none, none⟩)] (Except.ok "tx9") 7
    [("c", ⟨1, some 5, some "w", some "t"⟩)] ⟨1, none, none, none⟩ "tx9"
    (by decide) rfl rfl rfl rfl).1 (by decide)).1

/-- Counterexample to C9 as stated: the `catch` branch returns
`e?.message || String(e)` verbatim, so the externally visible error text
tracks the minter's internal failure detail — two runs differing only in
the minter's error message produce different external messages, hence the
external text is not a fixed generic message independent of what the
minter (configured from secret endpoint/credential values) reports. -/
theorem claim_C9_counterexample :
    (claimV1 (fun _ => true) true "claimTo" "c" "0xabc"
      [("c", ⟨1, none, none, none⟩)] (Except.error "detail with endpoint A") 7
      [("c", ⟨1, none, none, none⟩)]).resp.error = some "detail with endpoint A"
    ∧ (claimV1 (fun _ => true) true "claimTo" "c" "0xabc"
      [("c", ⟨1, none, none, none⟩)] (Except.error "detail with endpoint B") 7
      [("c", ⟨1, none, none, none⟩)]).resp.error = some "detail with endpoint B"
    ∧ (some "detail with endpoint A" : Option String) ≠
        some "detail with endpoint B" := by
  decide

/-- C9 (amended).  Minter and infrastructure failures are surfaced to the
external caller as HTTP 500 whose message is the exception's own text,
verbatim (`e?.message || String(e)`) — not a generic message: the external
error text equals whatever the minter failure carries, and nothing is
written to the store; only the env-missing infrastructure failure has a
fixed message, which names the required variables but reveals no
values. -/
theorem claim_C9_error_surfacing (isAddr : String → Bool) (ce : Bool) (m : String)
    (code addr : String) (s : Store) (chainRes : Except String String)
    (now : Nat) (sMid : Store) (r : Row) (e : String)
    (hcode : code ≠ "") (haddr : isAddr addr = true)
    (hget : getQR s code = some r) (hrow : truthyNat r.used_at = false)
    (herr : mintTo ce isAddr m chainRes addr = Except.error e) :
    claimV1 isAddr ce m code addr s chainRes now sMid =
      ⟨⟨500, false, some e, none⟩, sMid, true, true⟩
    ∧ (∀ chainRes2 : Except String String, mintTo false isAddr m chainRes2 addr =
        Except.error "Missing RPC_URL / PRIVATE_KEY / NFT_CONTRACT_ADDRESS") := by
  constructor
  · simp [claimV1, hcode, haddr, hget, hrow, herr]
  · intro chainRes2
    simp [mintTo]

/-- Witness for the amended C9: a minter failure message `"boom"` is
surfaced verbatim in the HTTP 500 response. -/
theorem claim_C9_witness :
    claimV1 (fun _ => true) true "claimTo" "c" "0xabc"
      [("c", ⟨1, none, none, none⟩)] (Except.error "boom") 7
      [("c", ⟨1, none, none, none⟩)] =
      ⟨⟨500, false, some "boom", none⟩, [("c", ⟨1, none, none, none⟩)], true, true⟩ := by
  exact (claim_C9_error_surfacing (fun _ => true) true "claimTo" "c" "0xabc"
    [("c", ⟨1, none, none, none⟩)] (Except.error "boom") 7
    [("c", ⟨1, none, none, none⟩)] ⟨1, none, none, none⟩ "boom"
    (by decide) rfl rfl rfl rfl).1
